import Mathlib

/-!
Verification of the elysia-logging request/response logging middleware.

The TypeScript sources under `src/` are shallowly embedded below:
* `src/src/elysiaLogging.ts` — the middleware orchestrator, its IP-header
  precedence list `headersToCheck`, and the `onError` / `onRequest` /
  `onAfterHandle` / `onAfterResponse` lifecycle hooks;
* `src/src/log.ts` — the `Log` class with `formatJson`, `formatCommon`,
  `formatShort`.

The repository's `helpers.ts` (with `getIP`, `formatDuration`,
`parseBasicAuthHeader`, `getFormattingMethodName`) is imported by the
sources but absent from `src/`; those four functions are modelled from the
specification and carry a `Modelled from the spec:` doc comment.

JavaScript numbers that the claims exercise only at integral values
(elapsed milliseconds, epoch milliseconds, status codes) are modelled as
`Nat`.  Header maps (`Headers`, `Record<string,string>`) are association
lists of strings; the Fetch `Headers` object stores keys lower-cased, and
the embedded lookups assume lower-case keys as the sources do.
-/

namespace ElysiaLogging

/-- Embedding of `String.takeWhile` via the character list (kernel-reducible). -/
def strTakeWhile (p : Char → Bool) (s : String) : String :=
  String.mk (s.data.takeWhile p)

/-- Embedding of `String.dropWhile` via the character list (kernel-reducible). -/
def strDropWhile (p : Char → Bool) (s : String) : String :=
  String.mk (s.data.dropWhile p)

/-- Embedding of `String.drop` via the character list (kernel-reducible). -/
def strDrop (s : String) (n : Nat) : String :=
  String.mk (s.data.drop n)

/-- Embedding of `String.startsWith` via the character lists (kernel-reducible). -/
def strStartsWith (s pre : String) : Bool :=
  s.data.take pre.data.length = pre.data

/-- Embedding of `String.contains` via the character list (kernel-reducible). -/
def strContains (s : String) (c : Char) : Bool :=
  s.data.contains c

/-- JavaScript `String.prototype.trim` via the character list. -/
def strTrim (s : String) : String :=
  String.mk
    (((s.data.dropWhile Char.isWhitespace).reverse.dropWhile
      Char.isWhitespace).reverse)

/-- Embedding of `String.capitalize` via the character list (kernel-reducible). -/
def strCapitalize (s : String) : String :=
  match s.data with
  | [] => ""
  | c :: rest => String.mk (c.toUpper :: rest)

/-- JavaScript truthiness of an optional string: `a || b` yields `b` when
`a` is `null`/`undefined` or the empty string. -/
def jsOr (a : Option String) (b : String) : String :=
  match a with
  | some s => if s = "" then b else s
  | none => b

/-- Association-list lookup standing in for `Headers.get` /
`record[key]` on a string-keyed map (keys assumed already lower-case). -/
def lookupHeader (headers : List (String × String)) (name : String) :
    Option String :=
  (headers.find? (fun kv => kv.1 = name)).map (·.2)

/-- Embedding of `Headers.has` on the same representation. -/
def hasHeader (headers : List (String × String)) (name : String) : Bool :=
  (headers.find? (fun kv => kv.1 = name)).isSome

/-- Type of `response.status_code : number | string | undefined` from `types.ts`;
the `undefined` case is carried as `Option Status` at the use sites. -/
inductive Status where
  | num (n : Nat)
  | str (s : String)
  deriving Repr, DecidableEq

/-- JavaScript string interpolation of a `number | string | undefined`
status value (an absent value prints as `"undefined"`). -/
def statusToString : Option Status → String
  | some (.num n) => toString n
  | some (.str s) => s
  | none => "undefined"

/-- JavaScript string interpolation of an optional string
(`${this.logObject.request.ip}` prints `"undefined"` when absent). -/
def optToString : Option String → String
  | some s => s
  | none => "undefined"

/-- The `request.url` part of `LogObject` (`types.ts`). -/
structure UrlInfo where
  path : String
  params : List (String × String)
  queryString : Option String := none
  deriving Repr, DecidableEq

/-- The `request` part of `LogObject` (`types.ts`); `body` is kept as an
uninterpreted string since no claim inspects its structure. -/
structure RequestInfo where
  ip : Option String := none
  requestID : Option String := none
  method : String
  headers : Option (List (String × String)) := none
  url : UrlInfo
  body : Option String := none
  referer : Option String := none
  deriving Repr, DecidableEq

/-- The `response` part of `LogObject` (`types.ts`); `time` is elapsed
milliseconds, modelled at integral values. -/
structure ResponseInfo where
  status_code : Option Status := none
  time : Nat
  headers : Option (List (String × String)) := none
  body : Option String := none
  message : Option String := none
  referer : Option String := none
  deriving Repr, DecidableEq

/-- The `LogObject` record (`types.ts`); the `error` payload is uninterpreted. -/
structure LogObject where
  request : RequestInfo
  response : ResponseInfo
  error : Option String := none
  timestamp : Option String := none
  deriving Repr, DecidableEq

/-- The `headersToCheck` list from `elysiaLogging.ts`: the IP headers checked in
order of priority. -/
def headersToCheck : List String := [
  "x-forwarded-for",
  "x-real-ip",
  "x-client-ip",
  "cf-connecting-ip",
  "fastly-client-ip",
  "x-cluster-client-ip",
  "x-forwarded",
  "forwarded-for",
  "forwarded",
  "appengine-user-ip",
  "true-client-ip",
  "cf-pseudo-ipv4"]

/-- Modelled from the spec: `getIP` lives in the repository's
`helpers.ts`, which is not under `src/`.  Spec §4.1: iterate the
precedence list in order; for the first header present and non-empty,
return its value, taking the first comma-separated entry trimmed of
whitespace; if none is present return none. -/
def getIP (headers : List (String × String)) (ipHeaders : List String) :
    Option String :=
  match ipHeaders with
  | [] => none
  | name :: rest =>
    match lookupHeader headers name with
    | some v =>
      if v = "" then getIP headers rest
      else some (strTrim (strTakeWhile (· ≠ ',') v))
    | none => getIP headers rest

/-- Modelled from the spec: `formatDuration` lives in the repository's
`helpers.ts`, which is not under `src/`.  Spec §4.3: human-scaled string,
seconds with two decimals for ≥ 1000 ms (e.g. "1.23s"), otherwise
milliseconds (e.g. "842ms"); deterministic and monotone in the input. -/
def formatDuration (ms : Nat) : String :=
  if ms ≥ 1000 then
    let centis := ms / 10 % 100
    let frac := if centis < 10 then "0" ++ toString centis else toString centis
    toString (ms / 1000) ++ "." ++ frac ++ "s"
  else
    toString ms ++ "ms"

/-- Modelled from the spec: `getFormattingMethodName` lives in the
repository's `helpers.ts`, which is not under `src/`.  Spec §9: formatter
lookup follows the `"format" + Capitalized(name)` convention. -/
def getFormattingMethodName (format : String) : String :=
  "format" ++ strCapitalize format

/-- The `BasicAuth` record from `types.ts`. -/
structure BasicAuth where
  type : String
  username : String
  password : String
  deriving Repr, DecidableEq

/-- Value of a base64 alphabet character. -/
def b64Val (c : Char) : Option Nat :=
  if 'A' ≤ c ∧ c ≤ 'Z' then some (c.toNat - 'A'.toNat)
  else if 'a' ≤ c ∧ c ≤ 'z' then some (c.toNat - 'a'.toNat + 26)
  else if '0' ≤ c ∧ c ≤ '9' then some (c.toNat - '0'.toNat + 52)
  else if c = '+' then some 62
  else if c = '/' then some 63
  else none

/-- Decode a base64 character list into bytes; `none` on malformed input
(the behaviour of `atob` on an invalid string is to throw). -/
def b64DecodeBytes : List Char → Option (List Nat)
  | [] => some []
  | [c1, c2] => do
    let v1 ← b64Val c1
    let v2 ← b64Val c2
    pure [v1 * 4 + v2 / 16]
  | [c1, c2, '=', '='] => do
    let v1 ← b64Val c1
    let v2 ← b64Val c2
    pure [v1 * 4 + v2 / 16]
  | [c1, c2, c3] => do
    let v1 ← b64Val c1
    let v2 ← b64Val c2
    let v3 ← b64Val c3
    pure [v1 * 4 + v2 / 16, v2 % 16 * 16 + v3 / 4]
  | [c1, c2, c3, '='] => do
    let v1 ← b64Val c1
    let v2 ← b64Val c2
    let v3 ← b64Val c3
    pure [v1 * 4 + v2 / 16, v2 % 16 * 16 + v3 / 4]
  | c1 :: c2 :: c3 :: c4 :: rest => do
    let v1 ← b64Val c1
    let v2 ← b64Val c2
    let v3 ← b64Val c3
    let v4 ← b64Val c4
    let tail ← b64DecodeBytes rest
    pure ([v1 * 4 + v2 / 16, v2 % 16 * 16 + v3 / 4, v3 % 4 * 64 + v4] ++ tail)
  | _ => none

/-- Embedding of `atob`: base64 string to a latin-1 string, `none` on malformed input. -/
def atob (s : String) : Option String :=
  (b64DecodeBytes s.data).map fun bytes =>
    String.mk (bytes.map fun b => Char.ofNat b)

/-- Modelled from the spec: `parseBasicAuthHeader` lives in the
repository's `helpers.ts`, which is not under `src/`.  Spec §4.4: input
must match `Basic <base64>`; decode the payload as `username:password`;
on wrong scheme, invalid base64 or missing colon return none. -/
def parseBasicAuthHeader (value : String) : Option BasicAuth := do
  if strStartsWith value "Basic " then
    let decoded ← atob (strDrop value 6)
    if strContains decoded ':' then
      let username := strTakeWhile (· ≠ ':') decoded
      let password := strDrop (strDropWhile (· ≠ ':') decoded) 1
      pure { type := "Basic", username := username, password := password }
    else none
  else none

/-- Upper-case hexadecimal digit for `n < 16`. -/
def hexDigit (n : Nat) : Char :=
  if n < 10 then Char.ofNat ('0'.toNat + n) else Char.ofNat ('A'.toNat + n - 10)

/-- UTF-8 bytes of a code point. -/
def utf8Bytes (n : Nat) : List Nat :=
  if n < 0x80 then [n]
  else if n < 0x800 then [0xC0 + n / 64, 0x80 + n % 64]
  else if n < 0x10000 then [0xE0 + n / 4096, 0x80 + n / 64 % 64, 0x80 + n % 64]
  else [0xF0 + n / 262144, 0x80 + n / 4096 % 64, 0x80 + n / 64 % 64,
        0x80 + n % 64]

/-- The `application/x-www-form-urlencoded` escaping of one character, as the
`URLSearchParams` serializer performs: ASCII alphanumerics and `*-._`
pass through, a space becomes `+`, anything else is percent-encoded. -/
def formEncodeChar (c : Char) : String :=
  if ('A' ≤ c ∧ c ≤ 'Z') ∨ ('a' ≤ c ∧ c ≤ 'z') ∨ ('0' ≤ c ∧ c ≤ '9') ∨
      c = '*' ∨ c = '-' ∨ c = '.' ∨ c = '_' then
    String.singleton c
  else if c = ' ' then "+"
  else
    String.join ((utf8Bytes c.toNat).map fun b =>
      String.mk ['%', hexDigit (b / 16), hexDigit (b % 16)])

/-- Embedding of `new URLSearchParams(params).toString()` on a string-keyed record. -/
def urlSearchParamsToString (params : List (String × String)) : String :=
  String.intercalate "&" (params.map fun kv =>
    (String.join (kv.1.data.map formEncodeChar)) ++ "=" ++
    (String.join (kv.2.data.map formEncodeChar)))

/-- The `req-<epoch millis>-<random base36 suffix>` request-id generation
(`elysiaLogging.ts` line 145 and `log.ts` line 50); the clock reading and
the random suffix are passed in. -/
def genRequestID (millis : Nat) (suffix : String) : String :=
  "req-" ++ toString millis ++ "-" ++ suffix

/-- Embedding of `Log.formatJson` (`log.ts`): a copy of the record with a guaranteed
`request.requestID`, a derived `response.message`, and `timestamp` set to
the current ISO-8601 instant.  The current instant and the ingredients of
a generated request id are passed in for `Date.now()`,
`Math.random().toString(36).substr(2, 9)` and `new Date().toISOString()`. -/
def Log.formatJson (nowISO : String) (genMillis : Nat) (genSuffix : String)
    (log : LogObject) : LogObject :=
  let requestId := jsOr log.request.requestID (genRequestID genMillis genSuffix)
  { log with
    request := { log.request with requestID := some requestId }
    response := { log.response with
      message := some (log.request.method ++ " " ++ log.request.url.path ++
        " completed with status " ++ statusToString log.response.status_code ++
        " in " ++ formatDuration log.response.time) }
    timestamp := some nowISO }

/-- Embedding of `Log.formatCommon` (`log.ts`): the NCSA common log format string.
The rendered local date (`dd/MMM/yyyy:HH:mm:ss xx` of the render-time
clock) is passed in. -/
def Log.formatCommon (formattedDate : String) (log : LogObject) : String :=
  let authHeader :=
    (log.request.headers.bind (lookupHeader · "authorization")).getD ""
  let basicAuthUser :=
    ((parseBasicAuthHeader authHeader).map (·.username)).getD "-"
  let requestProtocol :=
    (log.request.headers.bind (lookupHeader · "x-forwarded-proto")).getD
      "HTTP/1.1"
  optToString log.request.ip ++ " - " ++ basicAuthUser ++ " [" ++
    formattedDate ++ "] \"" ++ log.request.method ++ " " ++
    log.request.url.path ++ " " ++ requestProtocol ++ "\" " ++
    statusToString log.response.status_code ++ " " ++ "-"

/-- Embedding of `Log.formatShort` (`log.ts`): the compact single-line rendering. -/
def Log.formatShort (log : LogObject) : String :=
  let timeMessage := formatDuration log.response.time
  let queryString :=
    if log.request.url.params.length ≠ 0 then
      "?" ++ urlSearchParamsToString log.request.url.params
    else ""
  let requestUri := log.request.url.path ++ queryString
  "[" ++ optToString log.request.ip ++ "] " ++ log.request.method ++ " " ++
    requestUri ++ " " ++ statusToString log.response.status_code ++ " (" ++
    timeMessage ++ ")"

/-- Output handed to the logger: `string | LogObject`. -/
inductive LogOutput where
  | str (s : String)
  | record (r : LogObject)
  deriving Repr, DecidableEq

/-- The `format` option: a named built-in formatter or a caller-supplied
function `(log: LogObject) => string | LogObject`. -/
inductive LogFormat where
  | name (s : String)
  | fn (f : LogObject → LogOutput)

/-- The per-request `ctx.store` bag.  Each field is `none` while its key
is absent from the store object; `responseSizeKey` records only the
presence of the `responseSize` key, whose value is always `undefined`. -/
structure Store where
  error : Option String := none
  requestStart : Option Nat := none
  responseSizeKey : Bool := false

/-- The `onError` hook (`elysiaLogging.ts` line 87):
`ctx.store = { error: ctx.error, ...ctx.store }` — the spread places the
existing store keys after the new `error` key, so an `error` already in
the store wins over the newly captured one. -/
def onError (e : String) (st : Store) : Store :=
  { st with error := some (st.error.getD e) }

/-- The `onRequest` hook (`elysiaLogging.ts` line 90):
`ctx.store = { requestStart: process.hrtime.bigint(), ...ctx.store }`. -/
def onRequest (now : Nat) (st : Store) : Store :=
  { st with requestStart := some (st.requestStart.getD now) }

/-- The `onAfterHandle` hook (`elysiaLogging.ts` line 93):
`ctx.store = { responseSize: undefined, ...ctx.store }`. -/
def onAfterHandle (st : Store) : Store :=
  { st with responseSizeKey := true }

/-- The slice of the per-request Elysia context that `onAfterResponse`
reads: the inbound request headers (Fetch `Headers`, lower-case keys),
method, path, decoded query params, the derived `ip`, the response status
from `ctx.set.status`, and the store bag. -/
structure Ctx where
  requestHeaders : List (String × String)
  method : String
  path : String
  params : List (String × String)
  ip : Option String
  setStatus : Option Status
  store : Store

/-- The `RequestLoggerOptions` record with the defaults destructured at the top of
`ElysiaLogging`; the three redact option fields are declared in
`types.ts` but never read by the orchestrator, mirrored here unused. -/
structure RequestLoggerOptions where
  level : String := "info"
  format : LogFormat := .name "json"
  skip : Option (Ctx → Bool) := none
  includeHeaders : List String := ["x-forwarded-for", "authorization"]
  ipHeaders : List String := headersToCheck
  redactRequestBodyFields : Option (List String) := none
  redactResponseBodyFields : Option (List String) := none
  redactHeaders : Option (List String) := none

/-- The property keys of `Log.prototype` (`log.ts`): the constructor, the
`error` setter, the `log` getter and the three formatting methods; the
construction-time check tests `getFormattingMethodName(format) in
Log.prototype`. -/
def logPrototypeKeys : List String :=
  ["constructor", "error", "log", "formatJson", "formatCommon", "formatShort"]

/-- Derivation of the client IP (`elysiaLogging.ts` lines 79-84):
`app.server ? getIP(headers, ipHeaders) ?? server.requestIP(req)?.address
?? undefined : undefined`. -/
def deriveIP (serverPresent : Bool) (socketAddress : Option String)
    (requestHeaders : List (String × String)) (ipHeaders : List String) :
    Option String :=
  if serverPresent then
    match getIP requestHeaders ipHeaders with
    | some ip => some ip
    | none => socketAddress
  else none

/-- Outcome of constructing the middleware. -/
inductive SetupResult where
  | configError (msg : String)
  | app (opts : RequestLoggerOptions)

/-- Embedding of the `ElysiaLogging` construction (`elysiaLogging.ts`
lines 63-77): a named formatter missing from `Log.prototype` throws
synchronously; then `storageAdapter.init().catch(err => {
console.error(...); process.exit(1) })` is started fire-and-forget and
the configured app is returned unconditionally — the init outcome never
affects the value construction returns.  `initResult` is the eventual
settlement of that promise; it is consumed only by the asynchronous
`initSettles` process event (`stepEvent` below), never here. -/
def elysiaLoggingSetup (opts : RequestLoggerOptions)
    (initResult : Except String Unit) : SetupResult :=
  let formatBad := match opts.format with
    | .name s => !(logPrototypeKeys.contains (getFormattingMethodName s))
    | .fn _ => false
  if formatBad then
    .configError ("Formatter \x27" ++
      (match opts.format with | .name s => s | .fn _ => "") ++
      "\x27 not found!")
  else
    .app opts

/-- The clock and randomness readings consumed during one
`onAfterResponse` run. -/
structure ClockEnv where
  endNs : Nat
  nowMillis : Nat
  randSuffix : String
  nowISO : String
  formattedDate : String

/-- Dispatch to a `Log.prototype` formatting method by name, as
`new Log(logObject)[formattingMethod]()` does. -/
def formatByName (methodName : String) (env : ClockEnv) (log : LogObject) :
    Option LogOutput :=
  if methodName = "formatJson" then
    some (.record (Log.formatJson env.nowISO env.nowMillis env.randSuffix log))
  else if methodName = "formatCommon" then
    some (.str (Log.formatCommon env.formattedDate log))
  else if methodName = "formatShort" then
    some (.str (Log.formatShort log))
  else none

/-- Externally visible dispatches of one `onAfterResponse` run. -/
inductive Effect where
  | loggerCall (level : String) (output : LogOutput)
  | saveLog (record : LogObject)
  deriving Repr, DecidableEq

/-- Log-object construction inside `onAfterResponse` (`elysiaLogging.ts`
lines 101-154): duration computation, `new Log({...}).log`, the error
copy from the store, the request-id assignment, and the
`includeHeaders` copy loop. -/
def buildLogObject (opts : RequestLoggerOptions) (env : ClockEnv)
    (ctx : Ctx) : LogObject :=
  let duration : Nat := match ctx.store.requestStart with
    | some start => (env.endNs - start) / 1000000
    | none => 0
  let baseUrl : UrlInfo := { path := ctx.path, params := ctx.params }
  let baseRequest : RequestInfo :=
    { ip := ctx.ip, method := ctx.method, url := baseUrl }
  let baseResponse : ResponseInfo :=
    { status_code := ctx.setStatus, time := duration }
  let base : LogObject := { request := baseRequest, response := baseResponse }
  let withError : LogObject := match ctx.store.error with
    | some e => { base with error := some e }
    | none => base
  let requestID := jsOr (lookupHeader ctx.requestHeaders "x-request-id")
    (genRequestID env.nowMillis env.randSuffix)
  let includedHeaders := opts.includeHeaders.filterMap fun h =>
    (lookupHeader ctx.requestHeaders h).map fun v => (h, v)
  { withError with
    request := { withError.request with
      requestID := some requestID, headers := some includedHeaders } }

/-- Embedding of `onAfterResponse` (`elysiaLogging.ts` lines 95-174): skip check,
log-object construction, formatting, then the logger call and
`storageAdapter.saveLog(logObject)`.  `.error` stands for a thrown
exception (the `Invalid formatting method type` branch cannot arise in
this embedding since `LogFormat` has only the string and function
cases). -/
def onAfterResponse (opts : RequestLoggerOptions) (env : ClockEnv)
    (ctx : Ctx) : Except String (List Effect) :=
  if (match opts.skip with | some p => p ctx | none => false) then .ok []
  else
    let logObject : LogObject := buildLogObject opts env ctx
    match opts.format with
    | .fn f => .ok [.loggerCall opts.level (f logObject), .saveLog logObject]
    | .name s =>
      match formatByName (getFormattingMethodName s) env logObject with
      | some out => .ok [.loggerCall opts.level out, .saveLog logObject]
      | none => .error ("Formatter \x27" ++ s ++ "\x27 not found!")

/-- A process-level event after construction, in event-loop settlement
order: the host framework completes an exchange (running
`onAfterResponse`), or the pending `storageAdapter.init()` promise
settles — on a rejection the `.catch` handler of `elysiaLogging.ts`
lines 72-75 runs `process.exit(1)`.  The promise is not awaited by
construction, so exchange events may precede `initSettles`. -/
inductive ProcEvent where
  | exchange (env : ClockEnv) (ctx : Ctx)
  | initSettles

/-- Process state after construction: `exitCode` is set once
`process.exit` has run; nothing executes afterwards. -/
structure ProcState where
  exitCode : Option Nat := none
  deriving Repr, DecidableEq

/-- One process step: after `process.exit` nothing runs; an exchange
event dispatches the effects of `onAfterResponse` (none if it throws);
the init settlement runs the `.catch` handler, exiting with code 1 on a
rejected init and doing nothing on a resolved one. -/
def stepEvent (opts : RequestLoggerOptions) (initResult : Except String Unit)
    (st : ProcState) (ev : ProcEvent) : ProcState × List Effect :=
  match st.exitCode with
  | some _ => (st, [])
  | none =>
    match ev with
    | .exchange env ctx =>
      match onAfterResponse opts env ctx with
      | .ok effs => (st, effs)
      | .error _ => (st, [])
    | .initSettles =>
      match initResult with
      | .error _ => ({ st with exitCode := some 1 }, [])
      | .ok _ => (st, [])

/-- Run a sequence of process events, accumulating dispatched effects. -/
def runEvents (opts : RequestLoggerOptions) (initResult : Except String Unit) :
    List ProcEvent → ProcState → ProcState × List Effect
  | [], st => (st, [])
  | ev :: evs, st =>
    let step := stepEvent opts initResult st ev
    let rest := runEvents opts initResult evs step.1
    (rest.1, step.2 ++ rest.2)

/-! ### The end-to-end example exchange (spec §8)

A GET to `/users?active=true` with header
`authorization: Basic YWxpY2U6c2VjcmV0`, completing with status 200 in
42 ms, client IP `203.0.113.7`. -/

/-- Context of the end-to-end example exchange. -/
def exampleCtx : Ctx := {
  requestHeaders := [("authorization", "Basic YWxpY2U6c2VjcmV0")]
  method := "GET"
  path := "/users"
  params := [("active", "true")]
  ip := some "203.0.113.7"
  setStatus := some (.num 200)
  store := { requestStart := some 0 } }

/-- Clock readings for the example exchange: the hrtime delta is 42 ms. -/
def exampleEnv : ClockEnv := {
  endNs := 42000000
  nowMillis := 1700000000000
  randSuffix := "k3j9x2m4q"
  nowISO := "2026-10-11T00:00:00.000Z"
  formattedDate := "11/Oct/2026:00:00:00 +0000" }

/-! ### Helper lemmas -/

/-- A generated request id is never the empty string. -/
lemma genRequestID_ne_empty (m : Nat) (s : String) : genRequestID m s ≠ "" := by
  unfold genRequestID
  intro h
  have := congrArg String.data h
  simp [String.data_append] at this

/-- The value of `a || b` is non-empty whenever the fallback `b` is. -/
lemma jsOr_ne_empty (a : Option String) (b : String) (hb : b ≠ "") :
    jsOr a b ≠ "" := by
  unfold jsOr
  cases a with
  | none => exact hb
  | some s => by_cases hs : s = "" <;> simp [hs, hb]

/-- The record dispatched to `saveLog` by a completed `onAfterResponse`
run is exactly the constructed log object. -/
lemma saveLog_record_eq (opts : RequestLoggerOptions) (env : ClockEnv)
    (ctx : Ctx) (effs : List Effect) (rec : LogObject)
    (hok : onAfterResponse opts env ctx = .ok effs)
    (hmem : Effect.saveLog rec ∈ effs) :
    rec = buildLogObject opts env ctx := by
  unfold onAfterResponse at hok
  by_cases hskip : (match opts.skip with | some p => p ctx | none => false) = true
  · rw [if_pos hskip] at hok
    cases hok
    cases hmem
  · rw [if_neg hskip] at hok
    cases hfmt : opts.format with
    | fn f =>
      rw [hfmt] at hok
      simp only [] at hok
      cases hok
      simp only [List.mem_cons, List.not_mem_nil, or_false] at hmem
      rcases hmem with h | h
      · cases h
      · cases h
        rfl
    | name s =>
      rw [hfmt] at hok
      simp only [] at hok
      cases hname : formatByName (getFormattingMethodName s) env
          (buildLogObject opts env ctx) with
      | none => rw [hname] at hok; cases hok
      | some out =>
        rw [hname] at hok
        cases hok
        simp only [List.mem_cons, List.not_mem_nil, or_false] at hmem
        rcases hmem with h | h
        · cases h
        · cases h
          rfl

/-- The constructed log object's `request.requestID`. -/
lemma buildLogObject_requestID (opts : RequestLoggerOptions) (env : ClockEnv)
    (ctx : Ctx) :
    (buildLogObject opts env ctx).request.requestID =
      some (jsOr (lookupHeader ctx.requestHeaders "x-request-id")
        (genRequestID env.nowMillis env.randSuffix)) := by
  unfold buildLogObject
  cases ctx.store.error <;> rfl

/-- The constructed log object's `error` field mirrors the store. -/
lemma buildLogObject_error (opts : RequestLoggerOptions) (env : ClockEnv)
    (ctx : Ctx) :
    (buildLogObject opts env ctx).error = ctx.store.error := by
  unfold buildLogObject
  cases ctx.store.error <;> rfl

/-- The record the orchestrator dispatches for the example exchange under
the default configuration. -/
def exampleDispatchedRecord : LogObject := buildLogObject {} exampleEnv exampleCtx

/-- The example exchange as a bare log record (no request id yet), as the
formatters receive it. -/
def exampleRecord : LogObject := {
  request := {
    ip := some "203.0.113.7"
    method := "GET"
    url := { path := "/users", params := [("active", "true")] } }
  response := { status_code := some (.num 200), time := 42 } }

/-- Resolution lemma: `getIP` returns the first comma-separated entry, trimmed, of the
first header in the precedence list that is present and non-empty. -/
lemma getIP_first_match (hs : List (String × String)) :
    ∀ (pre : List String) (name : String) (post : List String) (v : String),
      (∀ m ∈ pre, lookupHeader hs m = none ∨ lookupHeader hs m = some "") →
      lookupHeader hs name = some v → v ≠ "" →
      getIP hs (pre ++ name :: post) =
        some (strTrim (strTakeWhile (· ≠ ',') v)) := by
  intro pre
  induction pre with
  | nil =>
    intro name post v _ hname hv
    show getIP hs (name :: post) = _
    unfold getIP
    rw [hname]
    simp [hv]
  | cons m pre ih =>
    intro name post v hpre hname hv
    have hm := hpre m (List.mem_cons_self m pre)
    have hrest : ∀ m2 ∈ pre, lookupHeader hs m2 = none ∨
        lookupHeader hs m2 = some "" :=
      fun m2 hm2 => hpre m2 (List.mem_cons_of_mem m hm2)
    show getIP hs (m :: (pre ++ name :: post)) = _
    unfold getIP
    rcases hm with h | h
    · rw [h]
      exact ih name post v hrest hname hv
    · rw [h]
      simp only [if_pos]
      exact ih name post v hrest hname hv

/-! ### Claim theorems -/

/-- C1: the claim asserts that with the default configuration an
`authorization` request header reaches `saveLog` as `"[REDACTED]"`.  The
orchestrator never applies any redaction: for the example exchange the
record dispatched to the storage adapter carries the raw header value,
so the claim fails on the code (the declared `redactHeaders` option is
ignored). -/
theorem C1_authorization_not_redacted_at_saveLog :
    (∃ out, onAfterResponse {} exampleEnv exampleCtx =
      .ok [.loggerCall "info" out, .saveLog exampleDispatchedRecord]) ∧
    lookupHeader (exampleDispatchedRecord.request.headers.getD [])
      "authorization" = some "Basic YWxpY2U6c2VjcmV0" ∧
    lookupHeader (exampleDispatchedRecord.request.headers.getD [])
      "authorization" ≠ some "[REDACTED]" := by
  refine ⟨⟨.record (Log.formatJson exampleEnv.nowISO exampleEnv.nowMillis
    exampleEnv.randSuffix exampleDispatchedRecord), ?_⟩, ?_, ?_⟩
  · rfl
  · decide
  · decide

/-- C2: the default client-IP precedence list is exactly the twelve
headers in the stated order, and resolution returns the first
comma-separated entry, trimmed, of the first header on the list that is
present and non-empty; on
`x-forwarded-for: "1.2.3.4, 5.6.7.8", x-real-ip: "9.9.9.9"` it yields
`"1.2.3.4"`. -/
theorem C2_default_ip_precedence :
    headersToCheck = ["x-forwarded-for", "x-real-ip", "x-client-ip",
      "cf-connecting-ip", "fastly-client-ip", "x-cluster-client-ip",
      "x-forwarded", "forwarded-for", "forwarded", "appengine-user-ip",
      "true-client-ip", "cf-pseudo-ipv4"] ∧
    (∀ (hs : List (String × String)) (pre : List String) (name : String)
        (post : List String) (v : String),
      headersToCheck = pre ++ name :: post →
      (∀ m ∈ pre, lookupHeader hs m = none ∨ lookupHeader hs m = some "") →
      lookupHeader hs name = some v → v ≠ "" →
      getIP hs headersToCheck =
        some (strTrim (strTakeWhile (· ≠ ',') v))) ∧
    getIP [("x-forwarded-for", "1.2.3.4, 5.6.7.8"), ("x-real-ip", "9.9.9.9")]
      headersToCheck = some "1.2.3.4" := by
  refine ⟨rfl, ?_, by decide⟩
  intro hs pre name post v hsplit hpre hname hv
  rw [hsplit]
  exact getIP_first_match hs pre name post v hpre hname hv

/-- Witness for C2 at a concrete header mapping where the second
precedence entry is the first match. -/
theorem C2_default_ip_precedence_witness :
    getIP [("x-real-ip", "9.9.9.9")] headersToCheck = some "9.9.9.9" := by
  have h := C2_default_ip_precedence.2.1 [("x-real-ip", "9.9.9.9")]
    ["x-forwarded-for"] "x-real-ip"
    ["x-client-ip", "cf-connecting-ip", "fastly-client-ip",
     "x-cluster-client-ip", "x-forwarded", "forwarded-for", "forwarded",
     "appengine-user-ip", "true-client-ip", "cf-pseudo-ipv4"] "9.9.9.9"
    (by decide) (by decide) (by decide) (by decide)
  rwa [show strTrim (strTakeWhile (· ≠ ',') "9.9.9.9") = "9.9.9.9" from
    by decide] at h

/-- C3: constructing the middleware with the unregistered format name
`"xml"` fails synchronously at configuration time with the
formatter-not-found error, whatever the adapter init outcome, and no
middleware app value is ever produced — so the failure cannot be
deferred to a request. -/
theorem C3_unknown_format_fails_at_construction
    (opts : RequestLoggerOptions) (initResult : Except String Unit)
    (hfmt : opts.format = .name "xml") :
    elysiaLoggingSetup opts initResult =
      .configError "Formatter \x27xml\x27 not found!" ∧
    ∀ cfg, elysiaLoggingSetup opts initResult ≠ .app cfg := by
  have hbad : getFormattingMethodName "xml" ∉ logPrototypeKeys := by decide
  unfold elysiaLoggingSetup
  rw [hfmt]
  simp [hbad]

/-- Witness for C3 at the default options with `format := "xml"` and a
successful init. -/
theorem C3_unknown_format_witness :
    elysiaLoggingSetup { format := .name "xml" } (.ok ()) =
      .configError "Formatter \x27xml\x27 not found!" :=
  (C3_unknown_format_fails_at_construction { format := .name "xml" }
    (.ok ()) rfl).1

/-- C4 counterexample: with a failing storage-adapter init whose
rejection settles only after the example exchange completes (the
source's `init().catch` is not awaited), construction still returns the
app, the exchange is served and dispatched to `saveLog` against the
never-initialized adapter, and only then does the process exit — so the
claimed "no request is ever served against the uninitialized adapter,
no exchange is dispatched to saveLog after init has failed" is false at
this concrete input. -/
theorem C4_saveLog_reached_before_failed_init_exit :
    elysiaLoggingSetup {} (.error "boom") = .app {} ∧
    runEvents {} (.error "boom")
        [.exchange exampleEnv exampleCtx, .initSettles] {} =
      ({ exitCode := some 1 },
        [.loggerCall "info" (.record (Log.formatJson exampleEnv.nowISO
            exampleEnv.nowMillis exampleEnv.randSuffix
            exampleDispatchedRecord)),
         .saveLog exampleDispatchedRecord]) :=
  ⟨rfl, rfl⟩

/-- C4 (amended): when the storage adapter's init fails, the settlement
of the rejection runs the catch handler and exits the process with code
1, and the exit is absorbing — no later event dispatches anything; but
construction returns the middleware app unconditionally whenever the
format check passes, so the abort is not guaranteed to precede
exchanges completing before the rejection settles. -/
theorem C4_storage_init_failure_exits_on_settlement
    (opts : RequestLoggerOptions) (e : String) :
    ((match opts.format with
      | .name s => logPrototypeKeys.contains (getFormattingMethodName s)
      | .fn _ => true) = true →
      elysiaLoggingSetup opts (.error e) = .app opts) ∧
    (∀ st : ProcState, st.exitCode = none →
      stepEvent opts (.error e) st .initSettles =
        ({ exitCode := some 1 }, [])) ∧
    (∀ (events : List ProcEvent) (st : ProcState) (c : Nat),
      st.exitCode = some c →
      runEvents opts (.error e) events st = (st, [])) := by
  refine ⟨?_, ?_, ?_⟩
  · intro h
    unfold elysiaLoggingSetup
    cases hfmt : opts.format with
    | name s =>
      rw [hfmt] at h
      have hmem : getFormattingMethodName s ∈ logPrototypeKeys :=
        List.mem_of_elem_eq_true h
      simp [hmem]
    | fn f => simp
  · intro st hst
    unfold stepEvent
    rw [hst]
  · intro events
    induction events with
    | nil =>
      intro st c hst
      rfl
    | cons ev evs ih =>
      intro st c hst
      unfold runEvents stepEvent
      rw [hst]
      simp [ih st c hst]

/-- Witness for the amended C4 at the default options: a failing init
still yields the app at construction, and an exchange event after the
exit dispatches nothing. -/
theorem C4_storage_init_failure_exits_on_settlement_witness :
    elysiaLoggingSetup {} (.error "slow init failure") = .app {} ∧
    runEvents {} (.error "slow init failure")
      [.exchange exampleEnv exampleCtx] { exitCode := some 1 } =
      ({ exitCode := some 1 }, []) := by
  obtain ⟨h1, h2, h3⟩ :=
    C4_storage_init_failure_exits_on_settlement {} "slow init failure"
  exact ⟨h1 (by decide), h3 [.exchange exampleEnv exampleCtx]
    { exitCode := some 1 } 1 rfl⟩

/-- C5: when the configured skip predicate returns true for an exchange,
`onAfterResponse` returns an empty effect list — no logger call, no
`saveLog` call, and no formatter output for that exchange. -/
theorem C5_skip_suppresses_dispatch (opts : RequestLoggerOptions)
    (env : ClockEnv) (ctx : Ctx) (p : Ctx → Bool)
    (hskip : opts.skip = some p) (hp : p ctx = true) :
    onAfterResponse opts env ctx = .ok [] := by
  unfold onAfterResponse
  rw [hskip]
  simp [hp]

/-- Witness for C5 with an always-true skip predicate on the example
exchange. -/
theorem C5_skip_suppresses_dispatch_witness :
    onAfterResponse { skip := some fun _ => true } exampleEnv exampleCtx =
      .ok [] :=
  C5_skip_suppresses_dispatch { skip := some fun _ => true } exampleEnv
    exampleCtx (fun _ => true) rfl rfl

/-- C6: `formatJson` returns a copy of the record in which
`request.requestID` is kept when present and non-empty and otherwise
generated by the `req-<epoch millis>-<suffix>` scheme, `response.message`
is the derived completion summary, `timestamp` is the current ISO-8601
instant, and every other field is unchanged. -/
theorem C6_formatJson_enrichment (nowISO : String) (genMillis : Nat)
    (genSuffix : String) (log : LogObject) :
    (∀ s, log.request.requestID = some s → s ≠ "" →
      (Log.formatJson nowISO genMillis genSuffix log).request.requestID =
        some s) ∧
    ((log.request.requestID = none ∨ log.request.requestID = some "") →
      (Log.formatJson nowISO genMillis genSuffix log).request.requestID =
        some (genRequestID genMillis genSuffix)) ∧
    (Log.formatJson nowISO genMillis genSuffix log).response.message =
      some (log.request.method ++ " " ++ log.request.url.path ++
        " completed with status " ++
        statusToString log.response.status_code ++ " in " ++
        formatDuration log.response.time) ∧
    (Log.formatJson nowISO genMillis genSuffix log).timestamp =
      some nowISO ∧
    (Log.formatJson nowISO genMillis genSuffix log).request.ip =
      log.request.ip ∧
    (Log.formatJson nowISO genMillis genSuffix log).request.method =
      log.request.method ∧
    (Log.formatJson nowISO genMillis genSuffix log).request.headers =
      log.request.headers ∧
    (Log.formatJson nowISO genMillis genSuffix log).request.url =
      log.request.url ∧
    (Log.formatJson nowISO genMillis genSuffix log).request.body =
      log.request.body ∧
    (Log.formatJson nowISO genMillis genSuffix log).request.referer =
      log.request.referer ∧
    (Log.formatJson nowISO genMillis genSuffix log).response.status_code =
      log.response.status_code ∧
    (Log.formatJson nowISO genMillis genSuffix log).response.time =
      log.response.time ∧
    (Log.formatJson nowISO genMillis genSuffix log).response.headers =
      log.response.headers ∧
    (Log.formatJson nowISO genMillis genSuffix log).response.body =
      log.response.body ∧
    (Log.formatJson nowISO genMillis genSuffix log).response.referer =
      log.response.referer ∧
    (Log.formatJson nowISO genMillis genSuffix log).error = log.error := by
  refine ⟨?_, ?_, rfl, rfl, rfl, rfl, rfl, rfl, rfl, rfl, rfl, rfl, rfl,
    rfl, rfl, rfl⟩
  · intro s hs hne
    simp [Log.formatJson, jsOr, hs, hne]
  · intro h
    rcases h with h | h <;> simp [Log.formatJson, jsOr, h]

/-- Witness for C6 on the example record (which carries no request id):
the id is generated by the scheme. -/
theorem C6_formatJson_enrichment_witness :
    (Log.formatJson "2026-10-11T00:00:00.000Z" 1700000000000 "k3j9x2m4q"
      exampleRecord).request.requestID =
      some "req-1700000000000-k3j9x2m4q" := by
  have h := (C6_formatJson_enrichment "2026-10-11T00:00:00.000Z"
    1700000000000 "k3j9x2m4q" exampleRecord).2.1 (Or.inl rfl)
  rwa [show genRequestID 1700000000000 "k3j9x2m4q" =
    "req-1700000000000-k3j9x2m4q" from by decide] at h

/-- C7: `formatCommon` renders the NCSA common log line with the
basic-auth username (or `-` when the Authorization header does not parse
as Basic auth), the `x-forwarded-proto` header or `HTTP/1.1` as protocol,
and `-` as the size; grounded by the two concrete basic-auth parses. -/
theorem C7_formatCommon_ncsa (date : String) (log : LogObject) :
    Log.formatCommon date log =
      optToString log.request.ip ++ " - " ++
      (match parseBasicAuthHeader
          ((log.request.headers.bind fun h =>
            lookupHeader h "authorization").getD "") with
        | some auth => auth.username
        | none => "-") ++
      " [" ++ date ++ "] \"" ++ log.request.method ++ " " ++
      log.request.url.path ++ " " ++
      ((log.request.headers.bind fun h =>
        lookupHeader h "x-forwarded-proto").getD "HTTP/1.1") ++ "\" " ++
      statusToString log.response.status_code ++ " -" ∧
    parseBasicAuthHeader "Basic YWxpY2U6c2VjcmV0" =
      some { type := "Basic", username := "alice", password := "secret" } ∧
    parseBasicAuthHeader "Bearer xyz" = none := by
  refine ⟨?_, by decide, by decide⟩
  unfold Log.formatCommon
  cases hp : parseBasicAuthHeader ((log.request.headers.bind fun h =>
      lookupHeader h "authorization").getD "") with
  | none =>
    simp only [hp, Option.map_none', Option.getD_none]
    apply String.ext
    simp [String.data_append]
  | some auth =>
    simp only [hp, Option.map_some', Option.getD_some]
    apply String.ext
    simp [String.data_append]

/-- C8: `formatShort` renders
`"[<ip>] <METHOD> <path><?queryString> <status> (<duration>)"`, the
query-string part appearing exactly when query parameters are present;
on the example exchange the output is
`"[203.0.113.7] GET /users?active=true 200 (42ms)"`. -/
theorem C8_formatShort_rendering (log : LogObject) :
    Log.formatShort log =
      "[" ++ optToString log.request.ip ++ "] " ++ log.request.method ++
        " " ++ (log.request.url.path ++
          (if log.request.url.params = [] then ""
           else "?" ++ urlSearchParamsToString log.request.url.params)) ++
        " " ++ statusToString log.response.status_code ++ " (" ++
        formatDuration log.response.time ++ ")" ∧
    Log.formatShort exampleRecord =
      "[203.0.113.7] GET /users?active=true 200 (42ms)" := by
  refine ⟨?_, by decide⟩
  unfold Log.formatShort
  cases hp : log.request.url.params with
  | nil => simp
  | cons a l => simp

/-- C9: every dispatched record carries a non-empty
`request.requestID` — the inbound `x-request-id` value when present and
non-empty, otherwise the `req-<epoch millis>-<suffix>` generated id —
and the record `formatJson` returns likewise carries a non-empty id. -/
theorem C9_requestID_nonempty (opts : RequestLoggerOptions) (env : ClockEnv)
    (ctx : Ctx) (effs : List Effect) (rec : LogObject)
    (hok : onAfterResponse opts env ctx = .ok effs)
    (hmem : Effect.saveLog rec ∈ effs) :
    (∃ r, rec.request.requestID = some r ∧ r ≠ "" ∧
      (∀ v, lookupHeader ctx.requestHeaders "x-request-id" = some v →
        v ≠ "" → r = v) ∧
      ((lookupHeader ctx.requestHeaders "x-request-id" = none ∨
        lookupHeader ctx.requestHeaders "x-request-id" = some "") →
        r = genRequestID env.nowMillis env.randSuffix)) ∧
    ∀ (nowISO : String) (m : Nat) (suf : String) (l : LogObject),
      ∃ r, (Log.formatJson nowISO m suf l).request.requestID = some r ∧
        r ≠ "" := by
  constructor
  · have hrec := saveLog_record_eq opts env ctx effs rec hok hmem
    refine ⟨jsOr (lookupHeader ctx.requestHeaders "x-request-id")
      (genRequestID env.nowMillis env.randSuffix), ?_, ?_, ?_, ?_⟩
    · rw [hrec]
      exact buildLogObject_requestID opts env ctx
    · exact jsOr_ne_empty _ _ (genRequestID_ne_empty _ _)
    · intro v hv hvne
      simp [jsOr, hv, hvne]
    · intro h
      rcases h with h | h <;> simp [jsOr, h]
  · intro nowISO m suf l
    exact ⟨jsOr l.request.requestID (genRequestID m suf), rfl,
      jsOr_ne_empty _ _ (genRequestID_ne_empty _ _)⟩

/-- Witness for C9 on the example exchange dispatched under the default
configuration. -/
theorem C9_requestID_nonempty_witness :
    ∃ r, exampleDispatchedRecord.request.requestID = some r ∧ r ≠ "" := by
  have h := C9_requestID_nonempty {} exampleEnv exampleCtx
    [.loggerCall "info" (.record (Log.formatJson exampleEnv.nowISO
      exampleEnv.nowMillis exampleEnv.randSuffix exampleDispatchedRecord)),
     .saveLog exampleDispatchedRecord] exampleDispatchedRecord rfl (by simp)
  obtain ⟨⟨r, hr, hne, _, _⟩, _⟩ := h
  exact ⟨r, hr, hne⟩

/-- C10: a second firing of the error hook never overwrites the first
captured error (the store spread gives the existing value precedence),
and the dispatched record's `error` field equals the store's error. -/
theorem C10_first_error_wins (e1 e2 : String) (st : Store)
    (opts : RequestLoggerOptions) (env : ClockEnv) (ctx : Ctx)
    (effs : List Effect) (rec : LogObject) :
    (onError e2 (onError e1 st)).error = some (st.error.getD e1) ∧
    (st.error = none → (onError e2 (onError e1 st)).error = some e1) ∧
    (onAfterResponse opts env ctx = .ok effs →
      Effect.saveLog rec ∈ effs → rec.error = ctx.store.error) := by
  refine ⟨?_, ?_, ?_⟩
  · simp [onError]
  · intro h
    simp [onError, h]
  · intro hok hmem
    rw [saveLog_record_eq opts env ctx effs rec hok hmem]
    exact buildLogObject_error opts env ctx

/-- Witness for C10: two error firings on an initially empty store leave
the first error in place. -/
theorem C10_first_error_wins_witness :
    (onError "second" (onError "first" {})).error = some "first" :=
  (C10_first_error_wins "first" "second" {} {} exampleEnv exampleCtx []
    exampleDispatchedRecord).2.1 rfl

end ElysiaLogging
